import Mathlib

/-!
Shallow embedding of the go-percentman core: the `models` package
(src/unnamed/part_000), the HTTP client (src/http/client.go) and the
storage layer (src/storage/storage.go).

Machine integers of the source (status codes, durations, timestamps) are
modelled as `Nat`; none of the claims exercises overflow.  External
effects (the network round trip performed by `http.Client.Do`, the
outcome of `url.Parse`, `io.ReadAll`, the measured wall-clock duration,
the filesystem) are supplied as explicit environment values, so every
definition is executable.
-/

namespace PercentMan

/-- models.Header (src/unnamed/part_000): a key-value pair with an enabled flag. -/
structure Header where
  key : String
  value : String
  enabled : Bool
deriving Repr, DecidableEq, Inhabited

/-- models.Request (src/unnamed/part_000). -/
structure Request where
  method : String
  url : String
  headers : List Header
  body : String
deriving Repr, DecidableEq, Inhabited

/-- models.Request.Clone (src/unnamed/part_000): copies the headers slice and all
scalar fields.  In this value-level model the copy is value-equal to the original. -/
def Request.clone (r : Request) : Request :=
  { method := r.method, url := r.url, headers := r.headers, body := r.body }

/-- models.Response (src/unnamed/part_000).  `headers` is Go's
`map[string]string`, modelled as an association list; `none` is the nil map
(the zero value), `some l` a made map.  `responseTime` is the
`time.Duration` in some fixed unit. -/
structure Response where
  statusCode : Nat
  status : String
  headers : Option (List (String × String))
  body : String
  responseTime : Nat
  error : String
deriving Repr, DecidableEq, Inhabited

/-- The zero value `models.Response{}` allocated at the top of SendRequest. -/
def emptyResponse : Response :=
  { statusCode := 0, status := "", headers := none, body := "", responseTime := 0, error := "" }

/-! ### net/textproto header canonicalization

`http.Header.Set` canonicalizes its key with
`textproto.CanonicalMIMEHeaderKey`: if every byte of the key is a valid
header-field byte (an HTTP token byte), the first letter and every letter
following a hyphen are upper-cased and all other letters lower-cased;
otherwise the key is returned unmodified. -/
/-- httpguts token bytes: `!#$%&'*+-.^_|~` (and the backquote), digits and
ASCII letters.  Mirrors `validHeaderFieldByte` / `IsTokenRune`. -/
def validHeaderFieldByte (c : Char) : Bool :=
  let n := c.toNat
  n == 33 || (35 ≤ n && n ≤ 39) || n == 42 || n == 43 || n == 45 || n == 46 ||
  (48 ≤ n && n ≤ 57) || (65 ≤ n && n ≤ 90) || (94 ≤ n && n ≤ 96) ||
  (97 ≤ n && n ≤ 122) || n == 124 || n == 126

/-- ASCII-only upper-casing, as the canonicalization loop performs on bytes. -/
def asciiUpper (c : Char) : Char :=
  if 97 ≤ c.toNat ∧ c.toNat ≤ 122 then Char.ofNat (c.toNat - 32) else c

/-- ASCII-only lower-casing, as the canonicalization loop performs on bytes. -/
def asciiLower (c : Char) : Char :=
  if 65 ≤ c.toNat ∧ c.toNat ≤ 90 then Char.ofNat (c.toNat + 32) else c

/-- The canonicalization loop of `canonicalMIMEHeaderKey`: `upper` tells
whether the next byte starts a word (start of key or right after a hyphen). -/
def canonicalStep : Bool → List Char → List Char
  | _, [] => []
  | upper, c :: cs =>
    let c' := if upper then asciiUpper c else asciiLower c
    c' :: canonicalStep (c' == '-') cs

/-- textproto.CanonicalMIMEHeaderKey. -/
def canonicalMIMEHeaderKey (s : String) : String :=
  if s.data.all validHeaderFieldByte then String.mk (canonicalStep true s.data) else s

/-! ### http.Header as an association list with unique keys -/
/-- Go's `http.Header` restricted to single-valued entries (the client only
ever uses `Set`, which replaces).  Keys are stored canonicalized. -/
abbrev HeaderMap := List (String × String)

/-- `http.Header.Set k v`: replace the entry at the canonical key. -/
def headerSet (m : HeaderMap) (k v : String) : HeaderMap :=
  let ck := canonicalMIMEHeaderKey k
  m.filter (fun p => p.1 != ck) ++ [(ck, v)]

/-- Lookup returning the stored value, `none` when the key is absent. -/
def headerFind (m : HeaderMap) (ck : String) : Option String :=
  (m.find? (fun p => p.1 == ck)).map (fun p => p.2)

/-- `http.Header.Get k`: canonicalize, then return the value or "" when absent. -/
def headerGet (m : HeaderMap) (k : String) : String :=
  (headerFind m (canonicalMIMEHeaderKey k)).getD ""

/-- The header-application loop of SendRequest (client.go lines 57-62):
every enabled entry with a non-empty key is `Set` into the request headers,
in order. -/
def applyHeaders (hs : List Header) (m : HeaderMap) : HeaderMap :=
  hs.foldl (fun m h => if h.enabled && h.key != "" then headerSet m h.key h.value else m) m

/-- The outgoing request headers of SendRequest (client.go lines 57-67):
header application followed by the Content-Type default for non-empty bodies. -/
def outgoingHeaders (req : Request) : HeaderMap :=
  let m := applyHeaders req.headers []
  if req.body != "" && headerGet m "Content-Type" == "" then
    headerSet m "Content-Type" "application/json"
  else m

/-! ### SendRequest (client.go lines 29-102) -/
/-- net/http `validMethod`: non-empty and every rune an HTTP token byte. -/
def validMethod (m : String) : Bool :=
  m.length > 0 && m.data.all validHeaderFieldByte

/-- The URL normalization of SendRequest (client.go lines 39-42). -/
def normalizeURL (u : String) : String :=
  if u.startsWith "http://" || u.startsWith "https://" then u else "http://" ++ u

/-- What `http.Client.Do` produced when it returned without a transport error:
status code, status line, the response header map (multi-valued), and the
outcome of `io.ReadAll` on the response body. -/
structure DoResult where
  statusCode : Nat
  status : String
  headers : List (String × List String)
  bodyRead : Except String String
deriving Repr, Inhabited

/-- The external effects one SendRequest call observes: whether `url.Parse`
accepts the normalized URL inside `http.NewRequest`, the measured wall-clock
duration of the `Do` call, and the outcome of the `Do` call itself. -/
structure NetEnv where
  urlParseOk : Bool
  elapsed : Nat
  outcome : Except String DoResult
deriving Repr, Inhabited

/-- The response-header copy of SendRequest (client.go lines 85-90): entries
with a non-empty value list are joined with ", ". -/
def copyRespHeaders (hs : List (String × List String)) : List (String × String) :=
  hs.filterMap (fun p => if p.2.length > 0 then some (p.1, String.intercalate ", " p.2) else none)

/-- Client.SendRequest (client.go lines 29-102), with the external effects
supplied by `env`.  The error strings produced inside `http.NewRequest` are
library messages; they are modelled by fixed stand-in texts (no claim
depends on their exact wording, only on their non-emptiness). -/
def sendRequest (req : Request) (env : NetEnv) : Response :=
  if req.url == "" then
    { emptyResponse with error := "URL is required" }
  else
    let method := if req.method == "" then "GET" else req.method
    if !validMethod method then
      { emptyResponse with error := "net/http: invalid method " ++ req.method }
    else if !env.urlParseOk then
      { emptyResponse with error := "parse " ++ normalizeURL req.url ++ ": invalid URL" }
    else
      match env.outcome with
      | Except.error msg =>
        { emptyResponse with error := msg, responseTime := env.elapsed }
      | Except.ok r =>
        match r.bodyRead with
        | Except.error msg =>
          { statusCode := r.statusCode, status := r.status,
            headers := some (copyRespHeaders r.headers),
            body := "", responseTime := env.elapsed,
            error := "Failed to read response body: " ++ msg }
        | Except.ok b =>
          { statusCode := r.statusCode, status := r.status,
            headers := some (copyRespHeaders r.headers),
            body := b, responseTime := env.elapsed, error := "" }

/-! ### storage.Storage (src/storage/storage.go), value-level model

`models.Template` and `models.HistoryItem` (src/unnamed/part_000), with
`time.Time` timestamps as `Nat` and the generated `uuid.New().String()`
and `time.Now()` supplied as explicit arguments.  The mutating operations
are modelled as pure state transformers: in the source the in-memory
mutation happens before the disk write and is never rolled back on write
failure, so the in-memory transition is the same whether or not the write
succeeds. -/
/-- models.Template. -/
structure Template where
  id : String
  name : String
  request : Request
  createdAt : Nat
  updatedAt : Nat
deriving Repr, DecidableEq, Inhabited

/-- models.HistoryItem. -/
structure HistoryItem where
  id : String
  request : Request
  response : Response
  timestamp : Nat
deriving Repr, DecidableEq, Inhabited

/-- The two in-memory collections of storage.Storage. -/
structure Storage where
  templates : List Template
  history : List HistoryItem
deriving Repr, DecidableEq, Inhabited

/-- The fresh `Storage` value built by NewStorage before loading. -/
def emptyStorage : Storage := { templates := [], history := [] }

/-- storage.go `maxHistoryItems`. -/
def maxHistoryItems : Nat := 50

/-- Storage.GetTemplates (storage.go lines 82-89): a copy of the slice. -/
def getTemplates (s : Storage) : List Template := s.templates

/-- Storage.GetHistory (storage.go lines 199-206): a copy of the slice. -/
def getHistory (s : Storage) : List HistoryItem := s.history

/-- The `for i, t := range s.templates` loop of SaveTemplate: apply `f`
to the first element whose name is `name`, returning the updated element
and the updated list (`none` and the unchanged list when no name matches). -/
def updateFirst (name : String) (f : Template → Template) :
    List Template → Option Template × List Template
  | [] => (none, [])
  | t :: ts =>
    if t.name == name then (some (f t), f t :: ts)
    else
      let r := updateFirst name f ts
      (r.1, t :: r.2)

/-- One step of the insertion sort used to model `sort.Slice` by name. -/
def insertTemplate (t : Template) : List Template → List Template
  | [] => [t]
  | u :: us => if t.name < u.name then t :: u :: us else u :: insertTemplate t us

/-- The `sort.Slice(s.templates, ...)` call of SaveTemplate (storage.go lines
122-124) sorts by name ascending; it is modelled by an insertion sort, which
produces a name-sorted permutation just as the source's unstable sort does. -/
def sortByName (l : List Template) : List Template := l.foldr insertTemplate []

/-- Storage.SaveTemplate (storage.go lines 92-131): update the first template
with the given name in place (same id, cloned request, refreshed updatedAt),
or append a new template and re-sort by name.  Returns the stored template
and the new state. -/
def saveTemplate (s : Storage) (name : String) (req : Request)
    (newId : String) (now : Nat) : Template × Storage :=
  match updateFirst name
      (fun t => { t with request := req.clone, updatedAt := now }) s.templates with
  | (some t, ts) => (t, { s with templates := ts })
  | (none, _) =>
    let t : Template :=
      { id := newId, name := name, request := req.clone, createdAt := now, updatedAt := now }
    (t, { s with templates := sortByName (s.templates ++ [t]) })

/-- The history item built by AddHistory (storage.go lines 213-218). -/
def mkHistoryItem (newId : String) (req : Request) (resp : Response) (ts : Nat) : HistoryItem :=
  { id := newId, request := req.clone, response := resp, timestamp := ts }

/-- Storage.AddHistory (storage.go lines 209-233): prepend the new item and
truncate to `maxHistoryItems` when the cap is exceeded. -/
def addHistory (s : Storage) (newId : String) (req : Request) (resp : Response)
    (ts : Nat) : HistoryItem × Storage :=
  let item := mkHistoryItem newId req resp ts
  let h := item :: s.history
  let h := if h.length > maxHistoryItems then h.take maxHistoryItems else h
  (item, { s with history := h })

/-- One AddHistory input: generated id, request, response, `time.Now()`. -/
abbrev HistoryInput := String × Request × Response × Nat

/-- The history item AddHistory builds from one input. -/
def mkItemOf (i : HistoryInput) : HistoryItem := mkHistoryItem i.1 i.2.1 i.2.2.1 i.2.2.2

/-- A sequence of AddHistory calls, oldest first. -/
def addHistoryAll (inputs : List HistoryInput) (s : Storage) : Storage :=
  inputs.foldl (fun s i => (addHistory s i.1 i.2.1 i.2.2.1 i.2.2.2).2) s

/-- Concrete inputs for the C6 witness: 60 distinct AddHistory calls. -/
def c6Inputs : List HistoryInput :=
  (List.range 60).map (fun n => (toString n, { method := "GET", url := "u", headers := [], body := "" }, emptyResponse, n))

/-- Request and environment exhibiting the body-read-failure path. -/
def c3Request : Request := { method := "GET", url := "example.com", headers := [], body := "" }

/-- Environment where Do succeeds with status 200 but reading the body fails. -/
def c3Env : NetEnv :=
  { urlParseOk := true, elapsed := 5,
    outcome := Except.ok
      { statusCode := 200, status := "200 OK",
        headers := [("Content-Type", ["text/html"])],
        bodyRead := Except.error "unexpected EOF" } }

/-- Environment with a transport failure, for the C3 witness. -/
def c3wEnv : NetEnv :=
  { urlParseOk := true, elapsed := 3,
    outcome := Except.error "dial tcp: connection refused" }

/-- Request with a non-empty url but an invalid method, so that
http.NewRequest fails before any network activity. -/
def c4Request : Request := { method := "BAD METHOD", url := "example.com", headers := [], body := "" }

/-- Environment for the C4 counterexample; never reached past NewRequest. -/
def c4Env : NetEnv := { urlParseOk := true, elapsed := 7, outcome := Except.error "unreachable" }

/-- Request for the C4 witness. -/
def c4wRequest : Request := { method := "GET", url := "example.com", headers := [], body := "" }

/-- Environment for the C4 witness: a transport failure after 9 time units. -/
def c4wEnv : NetEnv := { urlParseOk := true, elapsed := 9, outcome := Except.error "connection refused" }

/-- The value the last winning entry of the header list assigns to canonical
key `ck`: enabled, non-empty key, canonicalizing to `ck`, latest in the list. -/
def lastValue : List Header → String → Option String
  | [], _ => none
  | h :: hs, ck =>
    match lastValue hs ck with
    | some v => some v
    | none =>
      if h.enabled = true ∧ h.key ≠ "" ∧ canonicalMIMEHeaderKey h.key = ck then some h.value
      else none

/-- Request with body and an enabled Content-Type header whose value is the
empty string. -/
def c8Request : Request :=
  { method := "POST", url := "example.com",
    headers := [{ key := "Content-Type", value := "", enabled := true }], body := "x" }

/-- Request with body and no Content-Type among the enabled headers. -/
def c8wRequest1 : Request :=
  { method := "POST", url := "example.com",
    headers := [{ key := "X-Token", value := "t", enabled := true },
                { key := "Content-Type", value := "ignored", enabled := false }], body := "x" }

/-- Request with body and an explicit enabled content-type header. -/
def c8wRequest2 : Request :=
  { method := "POST", url := "example.com",
    headers := [{ key := "content-type", value := "text/plain", enabled := true }], body := "x" }

/-- Two enabled headers whose non-empty keys differ only in letter case but
contain a space, which is not a valid header-field byte. -/
def c10Headers : List Header :=
  [{ key := "a b", value := "1", enabled := true },
   { key := "A b", value := "2", enabled := true }]

/-! ### encoding/json model (FormatJSON / IsJSON, client.go lines 104-128)

A model of `json.Unmarshal` into `interface{}` followed by
`json.MarshalIndent(v, "", "  ")`, at the fidelity the claims need:
the JSON grammar (RFC 8259) with Go's whole-input requirement; object keys
unique with the last duplicate winning (Go's map assignment) and kept in
ascending key order (Go marshals maps with sorted keys); numbers carried as
their source literal (Go round-trips them through float64 — for the integer
literals exercised here the two agree); `\u` escapes decoded without
surrogate-pair combination. -/
/-- JSON whitespace accepted between tokens: space, tab, newline, return. -/
def isWS (c : Char) : Bool := c == ' ' || c == '\t' || c == '\n' || c == '\r'

def skipWS : List Char → List Char
  | [] => []
  | c :: cs => if isWS c then skipWS cs else c :: cs

def hexVal (c : Char) : Option Nat :=
  if 48 ≤ c.toNat && c.toNat ≤ 57 then some (c.toNat - 48)
  else if 97 ≤ c.toNat && c.toNat ≤ 102 then some (c.toNat - 87)
  else if 65 ≤ c.toNat && c.toNat ≤ 70 then some (c.toNat - 55)
  else none

/-- Parse the characters of a JSON string after the opening quote, decoding
escapes, up to and including the closing quote. -/
def parseStringChars : List Char → Option (List Char × List Char)
  | [] => none
  | c :: cs =>
    if c == '"' then some ([], cs)
    else if c == '\\' then
      match cs with
      | [] => none
      | e :: cs2 =>
        if e == '"' || e == '\\' || e == '/' then
          (parseStringChars cs2).map (fun p => (e :: p.1, p.2))
        else if e == 'b' then (parseStringChars cs2).map (fun p => ('\x08' :: p.1, p.2))
        else if e == 'f' then (parseStringChars cs2).map (fun p => ('\x0c' :: p.1, p.2))
        else if e == 'n' then (parseStringChars cs2).map (fun p => ('\n' :: p.1, p.2))
        else if e == 'r' then (parseStringChars cs2).map (fun p => ('\r' :: p.1, p.2))
        else if e == 't' then (parseStringChars cs2).map (fun p => ('\t' :: p.1, p.2))
        else if e == 'u' then
          match cs2 with
          | h1 :: h2 :: h3 :: h4 :: cs3 =>
            match hexVal h1, hexVal h2, hexVal h3, hexVal h4 with
            | some a, some b, some c3, some d =>
              (parseStringChars cs3).map
                (fun p => (Char.ofNat (4096 * a + 256 * b + 16 * c3 + d) :: p.1, p.2))
            | _, _, _, _ => none
          | _ => none
        else none
    else if c.toNat < 32 then none
    else (parseStringChars cs).map (fun p => (c :: p.1, p.2))

def spanDigits : List Char → List Char × List Char
  | [] => ([], [])
  | c :: cs =>
    if 48 ≤ c.toNat && c.toNat ≤ 57 then
      let r := spanDigits cs
      (c :: r.1, r.2)
    else ([], c :: cs)

/-- Integer part of a JSON number: a single 0 or a nonzero digit run. -/
def parseIntPart : List Char → Option (List Char × List Char)
  | [] => none
  | c :: cs =>
    if c == '0' then some (['0'], cs)
    else if 49 ≤ c.toNat && c.toNat ≤ 57 then
      let r := spanDigits cs
      some (c :: r.1, r.2)
    else none

/-- Optional fraction part: a dot must be followed by at least one digit. -/
def parseFracPart : List Char → Option (List Char × List Char)
  | '.' :: cs =>
    match spanDigits cs with
    | ([], _) => none
    | (ds, rest) => some ('.' :: ds, rest)
  | cs => some ([], cs)

/-- Optional exponent part: e or E, optional sign, at least one digit. -/
def parseExpPart : List Char → Option (List Char × List Char)
  | [] => some ([], [])
  | e :: cs =>
    if e == 'e' || e == 'E' then
      match cs with
      | [] => none
      | s :: cs2 =>
        if s == '+' || s == '-' then
          match spanDigits cs2 with
          | ([], _) => none
          | (ds, rest) => some (e :: s :: ds, rest)
        else
          match spanDigits cs with
          | ([], _) => none
          | (ds, rest) => some (e :: ds, rest)
    else some ([], e :: cs)

/-- Lex one JSON number literal. -/
def parseNumberLit (cs : List Char) : Option (List Char × List Char) :=
  match cs with
  | [] => none
  | c :: rest =>
    let start := if c == '-' then (([c] : List Char), rest) else (([] : List Char), cs)
    match parseIntPart start.2 with
    | none => none
    | some (ip, cs2) =>
      match parseFracPart cs2 with
      | none => none
      | some (fp, cs3) =>
        match parseExpPart cs3 with
        | none => none
        | some (ep, cs4) => some (start.1 ++ ip ++ fp ++ ep, cs4)

/-- The generic JSON document Go's Unmarshal builds for `interface{}`. -/
inductive Json where
  | null
  | bool (b : Bool)
  | num (lit : String)
  | str (s : String)
  | arr (xs : List Json)
  | obj (fields : List (String × Json))

instance : Inhabited Json := ⟨Json.null⟩

/-- Insert a field into a sorted unique-key field list, later value winning
(Go's map assignment composed with sorted-key marshaling). -/
def insertField (f : String × Json) : List (String × Json) → List (String × Json)
  | [] => [f]
  | g :: gs => if f.1 < g.1 then f :: g :: gs else g :: insertField f gs

def objInsert (fields : List (String × Json)) (k : String) (v : Json) :
    List (String × Json) :=
  insertField (k, v) (fields.filter (fun p => p.1 != k))

mutual

def parseValue : Nat → List Char → Option (Json × List Char)
  | 0, _ => none
  | Nat.succ fuel, cs =>
    match skipWS cs with
    | [] => none
    | c :: rest =>
      if c == 'n' then
        match rest with
        | 'u' :: 'l' :: 'l' :: r => some (Json.null, r)
        | _ => none
      else if c == 't' then
        match rest with
        | 'r' :: 'u' :: 'e' :: r => some (Json.bool true, r)
        | _ => none
      else if c == 'f' then
        match rest with
        | 'a' :: 'l' :: 's' :: 'e' :: r => some (Json.bool false, r)
        | _ => none
      else if c == '"' then
        match parseStringChars rest with
        | some (sc, r) => some (Json.str (String.mk sc), r)
        | none => none
      else if c == '[' then
        match skipWS rest with
        | ']' :: r => some (Json.arr [], r)
        | cs2 =>
          match parseArrayItems fuel cs2 with
          | some (vs, r) => some (Json.arr vs, r)
          | none => none
      else if c == '\x7b' then
        match skipWS rest with
        | '\x7d' :: r => some (Json.obj [], r)
        | cs2 =>
          match parseObjFields fuel cs2 [] with
          | some (fs, r) => some (Json.obj fs, r)
          | none => none
      else if c == '-' || (48 ≤ c.toNat && c.toNat ≤ 57) then
        match parseNumberLit (c :: rest) with
        | some (lit, r) => some (Json.num (String.mk lit), r)
        | none => none
      else none

def parseArrayItems : Nat → List Char → Option (List Json × List Char)
  | 0, _ => none
  | Nat.succ fuel, cs =>
    match parseValue fuel cs with
    | none => none
    | some (v, r) =>
      match skipWS r with
      | ',' :: r2 =>
        match parseArrayItems fuel r2 with
        | some (vs, r3) => some (v :: vs, r3)
        | none => none
      | ']' :: r2 => some ([v], r2)
      | _ => none

def parseObjFields : Nat → List Char → List (String × Json) →
    Option (List (String × Json) × List Char)
  | 0, _, _ => none
  | Nat.succ fuel, cs, acc =>
    match skipWS cs with
    | '"' :: r =>
      match parseStringChars r with
      | none => none
      | some (kc, r2) =>
        match skipWS r2 with
        | ':' :: r3 =>
          match parseValue fuel r3 with
          | none => none
          | some (v, r4) =>
            match skipWS r4 with
            | ',' :: r5 => parseObjFields fuel r5 (objInsert acc (String.mk kc) v)
            | '\x7d' :: r5 => some (objInsert acc (String.mk kc) v, r5)
            | _ => none
        | _ => none
    | _ => none

end

/-- json.Unmarshal of the whole input into `interface{}`: one value, with
leading and trailing whitespace allowed, nothing else after it.  The fuel
bound suffices: every recursive step consumes input. -/
def parseJSON (s : String) : Option Json :=
  match parseValue (2 * s.length + 2) s.data with
  | some (v, rest) => if (skipWS rest).isEmpty then some v else none
  | none => none

def hexDigitChar (n : Nat) : Char :=
  if n < 10 then Char.ofNat (48 + n) else Char.ofNat (87 + n)

/-- encoding/json string escaping (with its default HTML escaping). -/
def escapeJSONChar (c : Char) : List Char :=
  if c == '"' then ['\\', '"']
  else if c == '\\' then ['\\', '\\']
  else if c == '\n' then ['\\', 'n']
  else if c == '\r' then ['\\', 'r']
  else if c == '\t' then ['\\', 't']
  else if c.toNat < 32 then
    ['\\', 'u', '0', '0', hexDigitChar (c.toNat / 16), hexDigitChar (c.toNat % 16)]
  else if c == '<' then ['\\', 'u', '0', '0', '3', 'c']
  else if c == '>' then ['\\', 'u', '0', '0', '3', 'e']
  else if c == '&' then ['\\', 'u', '0', '0', '2', '6']
  else if c.toNat == 8232 then ['\\', 'u', '2', '0', '2', '8']
  else if c.toNat == 8233 then ['\\', 'u', '2', '0', '2', '9']
  else [c]

def quoteJSONString (s : String) : String :=
  String.mk ('"' :: (s.data.map escapeJSONChar).flatten ++ ['"'])

def indentOf (d : Nat) : String := String.join (List.replicate d "  ")

mutual

/-- json.MarshalIndent(v, "", "  ") at nesting depth d. -/
def marshalValue : Json → Nat → String
  | Json.null, _ => "null"
  | Json.bool true, _ => "true"
  | Json.bool false, _ => "false"
  | Json.num lit, _ => lit
  | Json.str s, _ => quoteJSONString s
  | Json.arr xs, d =>
    match xs with
    | [] => "[]"
    | ys => "[\n" ++ marshalArrayItems ys (d + 1) ++ "\n" ++ indentOf d ++ "]"
  | Json.obj fs, d =>
    match fs with
    | [] => "\x7b\x7d"
    | gs => "\x7b\n" ++ marshalObjFields gs (d + 1) ++ "\n" ++ indentOf d ++ "\x7d"

def marshalArrayItems : List Json → Nat → String
  | [], _ => ""
  | [x], d => indentOf d ++ marshalValue x d
  | x :: y :: xs, d =>
    indentOf d ++ marshalValue x d ++ ",\n" ++ marshalArrayItems (y :: xs) d

def marshalObjFields : List (String × Json) → Nat → String
  | [], _ => ""
  | [f], d => indentOf d ++ quoteJSONString f.1 ++ ": " ++ marshalValue f.2 d
  | f :: g :: fs, d =>
    indentOf d ++ quoteJSONString f.1 ++ ": " ++ marshalValue f.2 d ++ ",\n"
      ++ marshalObjFields (g :: fs) d

end

/-- The re-serialization FormatJSON performs on a parsed document.  (The
MarshalIndent error branch of the source is unreachable for documents built
by Unmarshal, so the model is total.) -/
def marshalIndentJSON (v : Json) : String := marshalValue v 0

/-- http.FormatJSON (client.go lines 104-122). -/
def FormatJSON (input : String) : String :=
  if input == "" then ""
  else
    match parseJSON input with
    | none => input
    | some v => marshalIndentJSON v

/-- http.IsJSON (client.go lines 124-128). -/
def IsJSON (s : String) : Bool := (parseJSON s).isSome

/-! ### Loading the backing files (claim C1)

NewStorage (storage.go lines 32-54) models: resolving the home directory and
creating the data directory are environment effects; the two backing files
are environment values.  `json.Unmarshal` into the typed collections is
modelled by decoders over the parsed document: unknown fields are ignored,
missing fields yield zero values, and mismatched types yield errors.
`time.Time` values (stored as RFC3339 strings on disk) are modelled as `Nat`
and decode from any JSON string to 0 — no claim depends on persisted
timestamp values. -/
def getField (fs : List (String × Json)) (k : String) : Option Json :=
  (fs.find? (fun p => p.1 == k)).map (fun p => p.2)

def decodeStr : Option Json → Except String String
  | none => Except.ok ""
  | some (Json.str s) => Except.ok s
  | some Json.null => Except.ok ""
  | some _ => Except.error "json: cannot unmarshal value into field of type string"

def decodeBool : Option Json → Except String Bool
  | none => Except.ok false
  | some (Json.bool b) => Except.ok b
  | some Json.null => Except.ok false
  | some _ => Except.error "json: cannot unmarshal value into field of type bool"

def decodeNat : Option Json → Except String Nat
  | none => Except.ok 0
  | some (Json.num lit) =>
    match lit.toNat? with
    | some n => Except.ok n
    | none => Except.error "json: cannot unmarshal number into integer field"
  | some Json.null => Except.ok 0
  | some _ => Except.error "json: cannot unmarshal value into integer field"

def decodeTime : Option Json → Except String Nat
  | none => Except.ok 0
  | some (Json.str _) => Except.ok 0
  | some Json.null => Except.ok 0
  | some _ => Except.error "json: cannot unmarshal value into field of type time.Time"

def decodeHeader : Json → Except String Header
  | Json.obj fs => do
    let k ← decodeStr (getField fs "key")
    let v ← decodeStr (getField fs "value")
    let e ← decodeBool (getField fs "enabled")
    pure { key := k, value := v, enabled := e }
  | Json.null => Except.ok { key := "", value := "", enabled := false }
  | _ => Except.error "json: cannot unmarshal value into Header"

def decodeHeaderList : Option Json → Except String (List Header)
  | none => Except.ok []
  | some Json.null => Except.ok []
  | some (Json.arr xs) => xs.mapM decodeHeader
  | some _ => Except.error "json: cannot unmarshal value into []Header"

def decodeRequest : Option Json → Except String Request
  | none => Except.ok { method := "", url := "", headers := [], body := "" }
  | some Json.null => Except.ok { method := "", url := "", headers := [], body := "" }
  | some (Json.obj fs) => do
    let m ← decodeStr (getField fs "method")
    let u ← decodeStr (getField fs "url")
    let hs ← decodeHeaderList (getField fs "headers")
    let b ← decodeStr (getField fs "body")
    pure { method := m, url := u, headers := hs, body := b }
  | some _ => Except.error "json: cannot unmarshal value into Request"

def decodeTemplate : Json → Except String Template
  | Json.obj fs => do
    let i ← decodeStr (getField fs "id")
    let n ← decodeStr (getField fs "name")
    let r ← decodeRequest (getField fs "request")
    let ca ← decodeTime (getField fs "created_at")
    let ua ← decodeTime (getField fs "updated_at")
    pure { id := i, name := n, request := r, createdAt := ca, updatedAt := ua }
  | Json.null =>
    Except.ok
      { id := "", name := "",
        request := { method := "", url := "", headers := [], body := "" },
        createdAt := 0, updatedAt := 0 }
  | _ => Except.error "json: cannot unmarshal value into Template"

def decodeTemplates : Json → Except String (List Template)
  | Json.arr xs => xs.mapM decodeTemplate
  | Json.null => Except.ok []
  | _ => Except.error "json: cannot unmarshal value into []Template"

def decodeStrMap : Option Json → Except String (Option (List (String × String)))
  | none => Except.ok none
  | some Json.null => Except.ok none
  | some (Json.obj fs) => do
    let l ← fs.mapM (fun p => do
      let v ← decodeStr (some p.2)
      pure (p.1, v))
    pure (some l)
  | some _ => Except.error "json: cannot unmarshal value into map of strings"

def decodeResponse : Option Json → Except String Response
  | none => Except.ok emptyResponse
  | some Json.null => Except.ok emptyResponse
  | some (Json.obj fs) => do
    let sc ← decodeNat (getField fs "status_code")
    let st ← decodeStr (getField fs "status")
    let hd ← decodeStrMap (getField fs "headers")
    let b ← decodeStr (getField fs "body")
    let rt ← decodeNat (getField fs "response_time")
    let er ← decodeStr (getField fs "error")
    pure { statusCode := sc, status := st, headers := hd, body := b,
           responseTime := rt, error := er }
  | some _ => Except.error "json: cannot unmarshal value into Response"

def decodeHistoryItem : Json → Except String HistoryItem
  | Json.obj fs => do
    let i ← decodeStr (getField fs "id")
    let r ← decodeRequest (getField fs "request")
    let rs ← decodeResponse (getField fs "response")
    let ts ← decodeTime (getField fs "timestamp")
    pure { id := i, request := r, response := rs, timestamp := ts }
  | Json.null =>
    Except.ok
      { id := "",
        request := { method := "", url := "", headers := [], body := "" },
        response := emptyResponse, timestamp := 0 }
  | _ => Except.error "json: cannot unmarshal value into HistoryItem"

def decodeHistoryItems : Json → Except String (List HistoryItem)
  | Json.arr xs => xs.mapM decodeHistoryItem
  | Json.null => Except.ok []
  | _ => Except.error "json: cannot unmarshal value into []HistoryItem"

/-- The state of a backing file on disk. -/
inductive FileState where
  | missing
  | present (data : String)

/-- The filesystem effects NewStorage observes. -/
structure StorageEnv where
  homeDirOk : Bool
  mkdirOk : Bool
  templatesData : FileState
  historyData : FileState

/-- Storage.loadTemplates (storage.go lines 58-71): a missing file is not an
error and leaves the collection empty; an existing file is parsed and
decoded, and any failure is returned as an error. -/
def loadTemplatesResult : FileState → Except String (List Template)
  | FileState.missing => Except.ok []
  | FileState.present d =>
    match parseJSON d with
    | none => Except.error "invalid character in JSON input"
    | some j => decodeTemplates j

/-- Storage.loadHistory (storage.go lines 175-188), same shape. -/
def loadHistoryResult : FileState → Except String (List HistoryItem)
  | FileState.missing => Except.ok []
  | FileState.present d =>
    match parseJSON d with
    | none => Except.error "invalid character in JSON input"
    | some j => decodeHistoryItems j

/-- storage.NewStorage (storage.go lines 32-54).  The calls
`s.loadTemplates()` and `s.loadHistory()` at lines 50-51 discard the returned
errors, so a load failure leaves the corresponding collection at its initial
empty value (json.Unmarshal does not touch the target on a syntax error) and
construction still succeeds; only home-directory resolution or directory
creation failure aborts construction. -/
def newStorage (env : StorageEnv) : Except String Storage :=
  if !env.homeDirOk then Except.error "cannot resolve user home directory"
  else if !env.mkdirOk then Except.error "cannot create data directory"
  else
    Except.ok
      { templates :=
          match loadTemplatesResult env.templatesData with
          | Except.ok ts => ts
          | Except.error _ => []
        history :=
          match loadHistoryResult env.historyData with
          | Except.ok hs => hs
          | Except.error _ => [] }

/-! ### Slice aliasing model for GetTemplates / GetHistory (claim C2)

`GetTemplates` and `GetHistory` copy only the outer slice
(`make` + `copy`, storage.go lines 82-89 and 199-206): the `Template` /
`HistoryItem` struct values are copied, but their nested reference fields —
the request's `Headers` slice and the response's `Headers` map — still point
at the same backing stores.  This model makes those references explicit:
backing arrays live in a heap indexed by `Nat`, and struct values carry
indices.  A caller mutation through a returned sequence is a heap write. -/
/-- A Template as stored in a slice: scalar fields by value, the request's
headers slice as a reference into the header-array heap. -/
structure TemplateRef where
  id : String
  name : String
  method : String
  url : String
  body : String
  headersRef : Nat
  createdAt : Nat
  updatedAt : Nat
deriving Repr, DecidableEq, Inhabited

/-- A HistoryItem as stored in a slice: scalars by value, the request's
headers slice and the response's headers map as references. -/
structure HistoryRef where
  id : String
  reqMethod : String
  reqUrl : String
  reqBody : String
  reqHeadersRef : Nat
  respStatusCode : Nat
  respStatus : String
  respHeadersRef : Nat
  respBody : String
  respTime : Nat
  respError : String
  timestamp : Nat
deriving Repr, DecidableEq, Inhabited

/-- The backing stores: template-slice arrays, history-slice arrays,
header-slice arrays and response-header maps. -/
structure Heap where
  tarrays : List (List TemplateRef)
  harrays : List (List HistoryRef)
  hdrArrays : List (List Header)
  strMaps : List (List (String × String))
deriving Repr, DecidableEq, Inhabited

/-- The store's own slice references. -/
structure StoreRef where
  templatesArr : Nat
  historyArr : Nat
deriving Repr, DecidableEq, Inhabited

/-- The logical Template a TemplateRef denotes under the given heap. -/
def derefTemplate (hdrArrays : List (List Header)) (t : TemplateRef) : Template :=
  { id := t.id, name := t.name,
    request := { method := t.method, url := t.url,
                 headers := hdrArrays.getD t.headersRef [], body := t.body },
    createdAt := t.createdAt, updatedAt := t.updatedAt }

/-- The logical HistoryItem a HistoryRef denotes under the given heap. -/
def derefHistory (hdrArrays : List (List Header))
    (strMaps : List (List (String × String))) (h : HistoryRef) : HistoryItem :=
  { id := h.id,
    request := { method := h.reqMethod, url := h.reqUrl,
                 headers := hdrArrays.getD h.reqHeadersRef [], body := h.reqBody },
    response := { statusCode := h.respStatusCode, status := h.respStatus,
                  headers := some (strMaps.getD h.respHeadersRef []),
                  body := h.respBody, responseTime := h.respTime, error := h.respError },
    timestamp := h.timestamp }

/-- What the store's template collection logically contains. -/
def templatesView (hp : Heap) (s : StoreRef) : List Template :=
  (hp.tarrays.getD s.templatesArr []).map (derefTemplate hp.hdrArrays)

/-- What the store's history collection logically contains. -/
def historyView (hp : Heap) (s : StoreRef) : List HistoryItem :=
  (hp.harrays.getD s.historyArr []).map (derefHistory hp.hdrArrays hp.strMaps)

/-- Storage.GetTemplates in the aliasing model: allocate a fresh outer array
and copy the element structs into it (`make` + `copy`); returns the new
array's reference.  The nested headersRef fields are copied as references. -/
def getTemplatesRef (hp : Heap) (s : StoreRef) : Nat × Heap :=
  (hp.tarrays.length,
   { hp with tarrays := hp.tarrays ++ [hp.tarrays.getD s.templatesArr []] })

/-- Storage.GetHistory in the aliasing model. -/
def getHistoryRef (hp : Heap) (s : StoreRef) : Nat × Heap :=
  (hp.harrays.length,
   { hp with harrays := hp.harrays ++ [hp.harrays.getD s.historyArr []] })

/-- Caller mutation `seq[i] = t` on a template slice. -/
def writeTemplateAt (hp : Heap) (arr i : Nat) (t : TemplateRef) : Heap :=
  { hp with tarrays := hp.tarrays.set arr ((hp.tarrays.getD arr []).set i t) }

/-- Caller mutation `seq[i] = h` on a history slice. -/
def writeHistoryAt (hp : Heap) (arr i : Nat) (h : HistoryRef) : Heap :=
  { hp with harrays := hp.harrays.set arr ((hp.harrays.getD arr []).set i h) }

/-- Caller mutation `headers[i] = h` through a shared header-slice reference. -/
def writeHeaderAt (hp : Heap) (arr i : Nat) (h : Header) : Heap :=
  { hp with hdrArrays := hp.hdrArrays.set arr ((hp.hdrArrays.getD arr []).set i h) }

/-- A store with one template named "A" holding one header. -/
def c2Heap : Heap :=
  { tarrays := [[{ id := "id1", name := "A", method := "GET", url := "u",
                   body := "", headersRef := 0, createdAt := 0, updatedAt := 0 }]],
    harrays := [[]],
    hdrArrays := [[{ key := "K", value := "v", enabled := true }]],
    strMaps := [] }

def c2Store : StoreRef := { templatesArr := 0, historyArr := 0 }

/-- The result of one GetTemplates call on the store above. -/
def c2Ret : Nat × Heap := getTemplatesRef c2Heap c2Store

/-- The first element of the returned sequence. -/
def c2Elem : TemplateRef := (c2Ret.2.tarrays.getD c2Ret.1 []).getD 0 default

/-- The caller mutating a nested header of the returned element:
`result[0].Request.Headers[0] = {K, evil, true}`. -/
def c2Mutated : Heap :=
  writeHeaderAt c2Ret.2 c2Elem.headersRef 0 { key := "K", value := "evil", enabled := true }

theorem Request.clone_eq (r : Request) : r.clone = r := rfl

/-! ### Lemmas about AddHistory (claim C6) -/
theorem take_append_take {α : Type} (n : Nat) (xs ys : List α) :
    (xs ++ ys.take n).take n = (xs ++ ys).take n := by
  rw [List.take_append_eq_append_take, List.take_append_eq_append_take, List.take_take]
  rw [Nat.min_eq_left (Nat.sub_le n xs.length)]

theorem addHistory_history (s : Storage) (newId : String) (req : Request)
    (resp : Response) (ts : Nat) :
    (addHistory s newId req resp ts).2.history
      = (mkHistoryItem newId req resp ts :: s.history).take maxHistoryItems := by
  unfold addHistory
  by_cases h : (mkHistoryItem newId req resp ts :: s.history).length > maxHistoryItems
  · simp [h]
  · simp [h, List.take_of_length_le (Nat.le_of_not_lt h)]

theorem addHistoryAll_history (inputs : List HistoryInput) :
    ∀ s : Storage, s.history.length ≤ maxHistoryItems →
    (addHistoryAll inputs s).history
      = ((inputs.map mkItemOf).reverse ++ s.history).take maxHistoryItems := by
  induction inputs with
  | nil =>
    intro s h
    simpa [addHistoryAll] using (List.take_of_length_le h).symm
  | cons i is ih =>
    intro s h
    have hstep : (addHistory s i.1 i.2.1 i.2.2.1 i.2.2.2).2.history
        = (mkItemOf i :: s.history).take maxHistoryItems :=
      addHistory_history s i.1 i.2.1 i.2.2.1 i.2.2.2
    have hlen : (addHistory s i.1 i.2.1 i.2.2.1 i.2.2.2).2.history.length
        ≤ maxHistoryItems := by
      rw [hstep, List.length_take]
      exact Nat.min_le_left _ _
    have := ih (addHistory s i.1 i.2.1 i.2.2.1 i.2.2.2).2 hlen
    rw [show addHistoryAll (i :: is) s
          = addHistoryAll is (addHistory s i.1 i.2.1 i.2.2.1 i.2.2.2).2 from rfl]
    rw [this, hstep, take_append_take]
    simp [List.append_assoc]

/-- C6: every AddHistory call prepends the new entry (newest-first, no dedup)
and truncates to at most 50 entries evicting the tail; 60 AddHistory calls
from an empty history leave exactly 50 entries, newest first, namely the 50
most recently added ones (the reverse of the insertion order, capped at 50). -/
theorem addHistory_prepend_cap :
    (∀ (s : Storage) (newId : String) (req : Request) (resp : Response) (ts : Nat),
       (addHistory s newId req resp ts).2.history
           = (mkHistoryItem newId req resp ts :: s.history).take maxHistoryItems ∧
       (addHistory s newId req resp ts).2.history.length ≤ maxHistoryItems) ∧
    (∀ inputs : List HistoryInput, inputs.length = 60 →
       (addHistoryAll inputs emptyStorage).history
           = ((inputs.map mkItemOf).reverse).take maxHistoryItems ∧
       (addHistoryAll inputs emptyStorage).history.length = 50) := by
  constructor
  · intro s newId req resp ts
    refine ⟨addHistory_history s newId req resp ts, ?_⟩
    rw [addHistory_history s newId req resp ts, List.length_take]
    exact Nat.min_le_left _ _
  · intro inputs hlen
    have h := addHistoryAll_history inputs emptyStorage (by simp [emptyStorage])
    simp only [show emptyStorage.history = [] from rfl, List.append_nil] at h
    refine ⟨h, ?_⟩
    rw [h, List.length_take, List.length_reverse, List.length_map, hlen]
    rfl

/-- Witness for C6 at a concrete run of 60 AddHistory calls. -/
theorem addHistory_prepend_cap_witness :
    (addHistoryAll c6Inputs emptyStorage).history
        = ((c6Inputs.map mkItemOf).reverse).take maxHistoryItems ∧
    (addHistoryAll c6Inputs emptyStorage).history.length = 50 :=
  addHistory_prepend_cap.2 c6Inputs (by rfl)

/-! ### Lemmas about SaveTemplate (claim C5) -/
theorem eq_of_countP_le_one {α : Type} {p : α → Bool} :
    ∀ {l : List α}, l.countP p ≤ 1 →
    ∀ {a b : α}, a ∈ l → b ∈ l → p a = true → p b = true → a = b := by
  intro l
  induction l with
  | nil =>
    intro _ a b ha
    simp at ha
  | cons x xs ih =>
    intro h a b ha hb hpa hpb
    rw [List.countP_cons] at h
    by_cases hx : p x = true
    · have hz : xs.countP p = 0 := by
        rw [if_pos hx] at h
        omega
      have hnone := List.countP_eq_zero.mp hz
      rcases List.mem_cons.mp ha with rfl | ha'
      · rcases List.mem_cons.mp hb with rfl | hb'
        · rfl
        · exact absurd hpb (hnone b hb')
      · exact absurd hpa (hnone a ha')
    · rcases List.mem_cons.mp ha with rfl | ha'
      · exact absurd hpa hx
      rcases List.mem_cons.mp hb with rfl | hb'
      · exact absurd hpb hx
      have h' : xs.countP p ≤ 1 := by
        rw [if_neg hx] at h
        omega
      exact ih h' ha' hb' hpa hpb

theorem updateFirst_fst_none (name : String) (f : Template → Template) :
    ∀ l : List Template, (updateFirst name f l).1 = none →
      (∀ t ∈ l, (t.name == name) = false) ∧ (updateFirst name f l).2 = l := by
  intro l
  induction l with
  | nil => intro _; exact ⟨by simp, rfl⟩
  | cons t ts ih =>
    intro h
    by_cases ht : (t.name == name) = true
    · simp [updateFirst, ht] at h
    · have hne : (t.name == name) = false := by simpa using ht
      simp only [updateFirst, hne, Bool.false_eq_true, if_false] at h ⊢
      obtain ⟨hall, hsnd⟩ := ih h
      refine ⟨?_, by rw [hsnd]⟩
      intro u hu
      rcases List.mem_cons.mp hu with rfl | hu'
      · exact hne
      · exact hall u hu'

theorem updateFirst_fst_some (name : String) (f : Template → Template) :
    ∀ (l : List Template) (t' : Template), (updateFirst name f l).1 = some t' →
      ∃ t, t ∈ l ∧ t.name = name ∧ t' = f t ∧ t' ∈ (updateFirst name f l).2 := by
  intro l
  induction l with
  | nil => intro t' h; simp [updateFirst] at h
  | cons t ts ih =>
    intro t' h
    by_cases ht : (t.name == name) = true
    · simp only [updateFirst, ht, if_true] at h ⊢
      have heq : t' = f t := by
        injection h with h2
        exact h2.symm
      exact ⟨t, List.mem_cons_self t ts, by simpa using ht, heq,
        by rw [heq]; exact List.mem_cons_self _ _⟩
    · have hne : (t.name == name) = false := by simpa using ht
      simp only [updateFirst, hne, Bool.false_eq_true, if_false] at h ⊢
      obtain ⟨u, hu, hun, ht', hmem⟩ := ih t' h
      exact ⟨u, List.mem_cons_of_mem t hu, hun, ht', List.mem_cons_of_mem t hmem⟩

theorem updateFirst_countP (name : String) (f : Template → Template)
    (hf : ∀ t, (f t).name = t.name) :
    ∀ l : List Template,
      ((updateFirst name f l).2).countP (fun t => t.name == name)
        = l.countP (fun t => t.name == name) := by
  intro l
  induction l with
  | nil => rfl
  | cons t ts ih =>
    by_cases ht : (t.name == name) = true
    · simp only [updateFirst, ht, if_true]
      rw [List.countP_cons, List.countP_cons]
      simp [hf t, ht]
    · have hne : (t.name == name) = false := by simpa using ht
      simp only [updateFirst, hne, Bool.false_eq_true, if_false]
      rw [List.countP_cons, List.countP_cons, ih]

theorem insertTemplate_perm (t : Template) :
    ∀ l : List Template, (insertTemplate t l).Perm (t :: l) := by
  intro l
  induction l with
  | nil => exact List.Perm.refl _
  | cons u us ih =>
    simp only [insertTemplate]
    split
    · exact List.Perm.refl _
    · exact (ih.cons u).trans (List.Perm.swap t u us)

theorem sortByName_perm : ∀ l : List Template, (sortByName l).Perm l := by
  intro l
  induction l with
  | nil => exact List.Perm.refl _
  | cons t ts ih =>
    have : sortByName (t :: ts) = insertTemplate t (sortByName ts) := rfl
    rw [this]
    exact (insertTemplate_perm t (sortByName ts)).trans (ih.cons t)

theorem saveTemplate_post (s : Storage) (name : String) (req : Request)
    (newId : String) (now : Nat)
    (h : s.templates.countP (fun t => t.name == name) ≤ 1) :
    (saveTemplate s name req newId now).1.name = name ∧
    (saveTemplate s name req newId now).1 ∈ (saveTemplate s name req newId now).2.templates ∧
    (saveTemplate s name req newId now).2.templates.countP (fun t => t.name == name) = 1 ∧
    (∀ u ∈ (saveTemplate s name req newId now).2.templates,
        u.name = name → u = (saveTemplate s name req newId now).1) ∧
    (saveTemplate s name req newId now).1.request = req ∧
    (saveTemplate s name req newId now).1.updatedAt = now := by
  set f : Template → Template :=
    fun t => { t with request := req.clone, updatedAt := now } with hfdef
  have hf : ∀ t, (f t).name = t.name := fun t => rfl
  rcases hu : updateFirst name f s.templates with ⟨o, ts⟩
  cases o with
  | some t' =>
    have h1 : (updateFirst name f s.templates).1 = some t' := by rw [hu]
    obtain ⟨orig, horig, horigname, ht'eq, ht'mem⟩ :=
      updateFirst_fst_some name f s.templates t' h1
    have hcount : ts.countP (fun t => t.name == name)
        = s.templates.countP (fun t => t.name == name) := by
      have := updateFirst_countP name f hf s.templates
      rwa [hu] at this
    have hpos : 0 < s.templates.countP (fun t => t.name == name) :=
      List.countP_pos_iff.mpr ⟨orig, horig, by simp [horigname]⟩
    have hone : ts.countP (fun t => t.name == name) = 1 := by omega
    have hsv : saveTemplate s name req newId now = (t', { s with templates := ts }) := by
      unfold saveTemplate
      rw [← hfdef, hu]
    rw [hsv]
    have ht'name : t'.name = name := by rw [ht'eq, hf, horigname]
    have ht'mem2 : t' ∈ ts := by rw [hu] at ht'mem; exact ht'mem
    refine ⟨ht'name, ht'mem2, hone, ?_, ?_, ?_⟩
    · intro u hu2 hun
      exact eq_of_countP_le_one (le_of_eq hone) hu2 ht'mem2 (by simp [hun]) (by simp [ht'name])
    · rw [ht'eq]
      exact Request.clone_eq req
    · rw [ht'eq]
  | none =>
    have h1 : (updateFirst name f s.templates).1 = none := by rw [hu]
    obtain ⟨hall, _⟩ := updateFirst_fst_none name f s.templates h1
    have hzero : s.templates.countP (fun t => t.name == name) = 0 :=
      List.countP_eq_zero.mpr (fun t ht => by simp [hall t ht])
    set tNew : Template :=
      { id := newId, name := name, request := req.clone, createdAt := now, updatedAt := now }
      with htNew
    have hsv : saveTemplate s name req newId now
        = (tNew, { s with templates := sortByName (s.templates ++ [tNew]) }) := by
      unfold saveTemplate
      rw [← hfdef, hu]
    rw [hsv]
    have hperm := sortByName_perm (s.templates ++ [tNew])
    have hcount : (sortByName (s.templates ++ [tNew])).countP (fun t => t.name == name) = 1 := by
      rw [hperm.countP_eq, List.countP_append, hzero]
      simp [htNew]
    have hmem : tNew ∈ sortByName (s.templates ++ [tNew]) := by
      rw [hperm.mem_iff]
      exact List.mem_append_right _ (List.mem_singleton.mpr rfl)
    refine ⟨rfl, hmem, hcount, ?_, Request.clone_eq req, rfl⟩
    intro u hu2 hun
    exact eq_of_countP_le_one (le_of_eq hcount) hu2 hmem (by simp [hun]) (by simp [htNew])

theorem saveTemplate_matches_unique (s : Storage) (name : String) (req : Request)
    (newId : String) (now : Nat) (t1 : Template)
    (h1 : t1 ∈ s.templates) (hname : t1.name = name)
    (huniq : ∀ u ∈ s.templates, u.name = name → u = t1) :
    (saveTemplate s name req newId now).1.id = t1.id := by
  set f : Template → Template :=
    fun t => { t with request := req.clone, updatedAt := now } with hfdef
  rcases hu : updateFirst name f s.templates with ⟨o, ts⟩
  cases o with
  | some t' =>
    have hfst : (updateFirst name f s.templates).1 = some t' := by rw [hu]
    obtain ⟨orig, horig, horigname, ht'eq, _⟩ :=
      updateFirst_fst_some name f s.templates t' hfst
    have : orig = t1 := huniq orig horig horigname
    have hsv : saveTemplate s name req newId now = (t', { s with templates := ts }) := by
      unfold saveTemplate
      rw [← hfdef, hu]
    rw [hsv, ht'eq, this]
  | none =>
    have hfst : (updateFirst name f s.templates).1 = none := by rw [hu]
    obtain ⟨hall, _⟩ := updateFirst_fst_none name f s.templates hfst
    have := hall t1 h1
    simp [hname] at this

/-- C5: saving twice under the same name (from any state respecting the
at-most-one-template-per-name invariant) leaves exactly one template with
that name; its request equals the second spec, its id is the one from the
first call, and its updatedAt is the second call's time — no duplicate
is created. -/
theorem saveTemplate_upsert (s : Storage) (name : String) (spec1 spec2 : Request)
    (id1 id2 : String) (n1 n2 : Nat)
    (h : s.templates.countP (fun t => t.name == name) ≤ 1) :
    ((saveTemplate (saveTemplate s name spec1 id1 n1).2 name spec2 id2 n2).2.templates.countP
        (fun t => t.name == name) = 1) ∧
    (saveTemplate (saveTemplate s name spec1 id1 n1).2 name spec2 id2 n2).1.name = name ∧
    (saveTemplate (saveTemplate s name spec1 id1 n1).2 name spec2 id2 n2).1.request = spec2 ∧
    (saveTemplate (saveTemplate s name spec1 id1 n1).2 name spec2 id2 n2).1.id
        = (saveTemplate s name spec1 id1 n1).1.id ∧
    (saveTemplate (saveTemplate s name spec1 id1 n1).2 name spec2 id2 n2).1.updatedAt = n2 ∧
    (saveTemplate (saveTemplate s name spec1 id1 n1).2 name spec2 id2 n2).1
        ∈ (saveTemplate (saveTemplate s name spec1 id1 n1).2 name spec2 id2 n2).2.templates ∧
    (∀ u ∈ (saveTemplate (saveTemplate s name spec1 id1 n1).2 name spec2 id2 n2).2.templates,
        u.name = name
          → u = (saveTemplate (saveTemplate s name spec1 id1 n1).2 name spec2 id2 n2).1) := by
  obtain ⟨hn1, hm1, hc1, huniq1, _, _⟩ := saveTemplate_post s name spec1 id1 n1 h
  obtain ⟨hn2, hm2, hc2, huniq2, hreq2, hupd2⟩ :=
    saveTemplate_post (saveTemplate s name spec1 id1 n1).2 name spec2 id2 n2 (le_of_eq hc1)
  have hid := saveTemplate_matches_unique (saveTemplate s name spec1 id1 n1).2 name spec2
    id2 n2 (saveTemplate s name spec1 id1 n1).1 hm1 hn1 huniq1
  exact ⟨hc2, hn2, hreq2, hid, hupd2, hm2, huniq2⟩

/-- Witness for C5: two saves under the name "A" starting from the empty store. -/
theorem saveTemplate_upsert_witness :
    ((saveTemplate (saveTemplate emptyStorage "A"
        { method := "GET", url := "u1", headers := [], body := "" } "id1" 1).2 "A"
        { method := "POST", url := "u2", headers := [], body := "b" } "id2" 2).2.templates.countP
        (fun t => t.name == "A") = 1) ∧
    (saveTemplate (saveTemplate emptyStorage "A"
        { method := "GET", url := "u1", headers := [], body := "" } "id1" 1).2 "A"
        { method := "POST", url := "u2", headers := [], body := "b" } "id2" 2).1.name = "A" ∧
    (saveTemplate (saveTemplate emptyStorage "A"
        { method := "GET", url := "u1", headers := [], body := "" } "id1" 1).2 "A"
        { method := "POST", url := "u2", headers := [], body := "b" } "id2" 2).1.request
        = { method := "POST", url := "u2", headers := [], body := "b" } ∧
    (saveTemplate (saveTemplate emptyStorage "A"
        { method := "GET", url := "u1", headers := [], body := "" } "id1" 1).2 "A"
        { method := "POST", url := "u2", headers := [], body := "b" } "id2" 2).1.id
        = (saveTemplate emptyStorage "A"
        { method := "GET", url := "u1", headers := [], body := "" } "id1" 1).1.id ∧
    (saveTemplate (saveTemplate emptyStorage "A"
        { method := "GET", url := "u1", headers := [], body := "" } "id1" 1).2 "A"
        { method := "POST", url := "u2", headers := [], body := "b" } "id2" 2).1.updatedAt = 2 ∧
    (saveTemplate (saveTemplate emptyStorage "A"
        { method := "GET", url := "u1", headers := [], body := "" } "id1" 1).2 "A"
        { method := "POST", url := "u2", headers := [], body := "b" } "id2" 2).1
        ∈ (saveTemplate (saveTemplate emptyStorage "A"
        { method := "GET", url := "u1", headers := [], body := "" } "id1" 1).2 "A"
        { method := "POST", url := "u2", headers := [], body := "b" } "id2" 2).2.templates ∧
    (∀ u ∈ (saveTemplate (saveTemplate emptyStorage "A"
        { method := "GET", url := "u1", headers := [], body := "" } "id1" 1).2 "A"
        { method := "POST", url := "u2", headers := [], body := "b" } "id2" 2).2.templates,
        u.name = "A"
          → u = (saveTemplate (saveTemplate emptyStorage "A"
        { method := "GET", url := "u1", headers := [], body := "" } "id1" 1).2 "A"
        { method := "POST", url := "u2", headers := [], body := "b" } "id2" 2).1) :=
  saveTemplate_upsert emptyStorage "A"
    { method := "GET", url := "u1", headers := [], body := "" }
    { method := "POST", url := "u2", headers := [], body := "b" } "id1" "id2" 1 2 (by decide)

/-! ### Claims about SendRequest result fields (C7, C3, C4) -/
/-- C7: for every spec whose url is empty, SendRequest returns the zero
response with error "URL is required" — identically for every network
environment (so no network activity can be observed) and with every other
field zero-valued. -/
theorem sendRequest_empty_url (m : String) (hs : List Header) (b : String) (env : NetEnv) :
    sendRequest { method := m, url := "", headers := hs, body := b } env
      = { emptyResponse with error := "URL is required" } := rfl

/-- Exhaustive shape of a SendRequest result: either no error, or an error
with all response fields zero, or the body-read failure where only the body
is guaranteed empty. -/
theorem sendRequest_cases (req : Request) (env : NetEnv) :
    (sendRequest req env).error = "" ∨
    ((sendRequest req env).statusCode = 0 ∧ (sendRequest req env).status = "" ∧
     (sendRequest req env).headers = none ∧ (sendRequest req env).body = "") ∨
    ((sendRequest req env).body = "" ∧
     ∃ cause, (sendRequest req env).error = "Failed to read response body: " ++ cause) := by
  by_cases h1 : (req.url == "") = true
  · have heq : sendRequest req env = { emptyResponse with error := "URL is required" } := by
      unfold sendRequest
      rw [if_pos h1]
    rw [heq]
    exact Or.inr (Or.inl ⟨rfl, rfl, rfl, rfl⟩)
  · by_cases h2 : (!validMethod (if req.method == "" then "GET" else req.method)) = true
    · have heq : sendRequest req env
          = { emptyResponse with error := "net/http: invalid method " ++ req.method } := by
        unfold sendRequest
        rw [if_neg h1, if_pos h2]
      rw [heq]
      exact Or.inr (Or.inl ⟨rfl, rfl, rfl, rfl⟩)
    · by_cases h3 : (!env.urlParseOk) = true
      · have heq : sendRequest req env
            = { emptyResponse with
                  error := "parse " ++ normalizeURL req.url ++ ": invalid URL" } := by
          unfold sendRequest
          rw [if_neg h1, if_neg h2, if_pos h3]
        rw [heq]
        exact Or.inr (Or.inl ⟨rfl, rfl, rfl, rfl⟩)
      · cases ho : env.outcome with
        | error msg =>
          have heq : sendRequest req env
              = { emptyResponse with error := msg, responseTime := env.elapsed } := by
            unfold sendRequest
            rw [if_neg h1, if_neg h2, if_neg h3, ho]
          rw [heq]
          exact Or.inr (Or.inl ⟨rfl, rfl, rfl, rfl⟩)
        | ok r =>
          have step1 : sendRequest req env
              = (match r.bodyRead with
                 | Except.error msg =>
                   { statusCode := r.statusCode, status := r.status,
                     headers := some (copyRespHeaders r.headers),
                     body := "", responseTime := env.elapsed,
                     error := "Failed to read response body: " ++ msg }
                 | Except.ok b =>
                   { statusCode := r.statusCode, status := r.status,
                     headers := some (copyRespHeaders r.headers),
                     body := b, responseTime := env.elapsed, error := "" }) := by
            unfold sendRequest
            rw [if_neg h1, if_neg h2, if_neg h3, ho]
          cases hb : r.bodyRead with
          | error msg =>
            rw [step1, hb]
            exact Or.inr (Or.inr ⟨rfl, msg, rfl⟩)
          | ok b =>
            rw [step1, hb]
            exact Or.inl rfl

/-- C3 counterexample: when reading the response body fails, the result has a
non-empty error while statusCode is 200 and the headers are populated — the
claimed "statusCode, headers and body zero-valued whenever error is
non-empty" fails. -/
theorem sendRequest_error_fields_cex :
    (sendRequest c3Request c3Env).error = "Failed to read response body: unexpected EOF" ∧
    (sendRequest c3Request c3Env).error ≠ "" ∧
    (sendRequest c3Request c3Env).statusCode = 200 ∧
    (sendRequest c3Request c3Env).headers = some [("Content-Type", "text/html")] := by
  decide

/-- C3 amended: whenever the error field of a SendRequest result is non-empty,
either all of statusCode, status, headers and body are zero-valued (URL
validation, request construction and transport failures), or the error is the
body-read failure "Failed to read response body: ..." — in which case
statusCode, status and headers may be populated but the body is empty. -/
theorem sendRequest_error_fields (req : Request) (env : NetEnv)
    (h : (sendRequest req env).error ≠ "") :
    ((sendRequest req env).statusCode = 0 ∧ (sendRequest req env).status = "" ∧
     (sendRequest req env).headers = none ∧ (sendRequest req env).body = "") ∨
    ((sendRequest req env).body = "" ∧
     ∃ cause, (sendRequest req env).error = "Failed to read response body: " ++ cause) := by
  rcases sendRequest_cases req env with he | hz | hr
  · exact absurd he h
  · exact Or.inl hz
  · exact Or.inr hr

/-- Witness for C3 amended at a concrete transport failure. -/
theorem sendRequest_error_fields_witness :
    ((sendRequest c3Request c3wEnv).statusCode = 0 ∧ (sendRequest c3Request c3wEnv).status = "" ∧
     (sendRequest c3Request c3wEnv).headers = none ∧ (sendRequest c3Request c3wEnv).body = "") ∨
    ((sendRequest c3Request c3wEnv).body = "" ∧
     ∃ cause, (sendRequest c3Request c3wEnv).error = "Failed to read response body: " ++ cause) :=
  sendRequest_error_fields c3Request c3wEnv (by decide)

/-- C4 counterexample: with a non-empty url but a method rejected by
http.NewRequest ("BAD METHOD" contains a space), SendRequest fails before the
network call and leaves the elapsed time zero — not only the empty-url
short-circuit leaves it zero. -/
theorem sendRequest_elapsed_cex :
    c4Request.url ≠ "" ∧
    (sendRequest c4Request c4Env).error ≠ "" ∧
    (sendRequest c4Request c4Env).responseTime = 0 ∧
    c4Env.elapsed = 7 := by
  decide

/-- C4 amended: for every spec with a non-empty url whose request
construction succeeds (valid method and parsable URL), SendRequest stores the
measured elapsed time of the network call in the result, on success and on
every failure; the elapsed time is left zero exactly when the empty-url check
short-circuits or http.NewRequest fails before any network activity. -/
theorem sendRequest_elapsed (req : Request) (env : NetEnv)
    (h1 : req.url ≠ "")
    (h2 : validMethod (if req.method == "" then "GET" else req.method) = true)
    (h3 : env.urlParseOk = true) :
    (sendRequest req env).responseTime = env.elapsed := by
  have h1' : ¬((req.url == "") = true) := by simpa using h1
  have h2' : ¬((!validMethod (if req.method == "" then "GET" else req.method)) = true) := by
    simpa using h2
  have h3' : ¬((!env.urlParseOk) = true) := by simp [h3]
  cases ho : env.outcome with
  | error msg =>
    unfold sendRequest
    rw [if_neg h1', if_neg h2', if_neg h3', ho]
  | ok r =>
    have step1 : sendRequest req env
        = (match r.bodyRead with
           | Except.error msg =>
             { statusCode := r.statusCode, status := r.status,
               headers := some (copyRespHeaders r.headers),
               body := "", responseTime := env.elapsed,
               error := "Failed to read response body: " ++ msg }
           | Except.ok b =>
             { statusCode := r.statusCode, status := r.status,
               headers := some (copyRespHeaders r.headers),
               body := b, responseTime := env.elapsed, error := "" }) := by
      unfold sendRequest
      rw [if_neg h1', if_neg h2', if_neg h3', ho]
    cases hb : r.bodyRead with
    | error msg => rw [step1, hb]
    | ok b => rw [step1, hb]

/-- Witness for C4 amended: the elapsed time is populated even on a transport
failure. -/
theorem sendRequest_elapsed_witness :
    (sendRequest c4wRequest c4wEnv).responseTime = 9 :=
  sendRequest_elapsed c4wRequest c4wEnv (by decide) (by decide) rfl

/-! ### Header application lemmas (claims C8, C10) -/
theorem toNat_ofNat_of_lt (n : Nat) (h : n < 55296) : (Char.ofNat n).toNat = n := by
  have hv : Nat.isValidChar n := Or.inl h
  unfold Char.ofNat
  rw [dif_pos hv]
  rfl

theorem char_eq_of_toNat_eq {c1 c2 : Char} (h : c1.toNat = c2.toNat) : c1 = c2 := by
  have := congrArg Char.ofNat h
  rwa [Char.ofNat_toNat, Char.ofNat_toNat] at this

theorem asciiUpper_eq_of_asciiLower_eq {c1 c2 : Char}
    (h : asciiLower c1 = asciiLower c2) : asciiUpper c1 = asciiUpper c2 := by
  unfold asciiLower at h
  unfold asciiUpper
  by_cases h1 : 65 ≤ c1.toNat ∧ c1.toNat ≤ 90
  · rw [if_pos h1] at h
    have e1 : (Char.ofNat (c1.toNat + 32)).toNat = c1.toNat + 32 :=
      toNat_ofNat_of_lt _ (by omega)
    by_cases h2 : 65 ≤ c2.toNat ∧ c2.toNat ≤ 90
    · rw [if_pos h2] at h
      have e2 : (Char.ofNat (c2.toNat + 32)).toNat = c2.toNat + 32 :=
        toNat_ofNat_of_lt _ (by omega)
      have : c1.toNat + 32 = c2.toNat + 32 := by rw [← e1, ← e2, h]
      rw [char_eq_of_toNat_eq (by omega : c1.toNat = c2.toNat)]
    · rw [if_neg h2] at h
      have hc2 : c2.toNat = c1.toNat + 32 := by rw [← h, e1]
      rw [if_neg (by omega : ¬(97 ≤ c1.toNat ∧ c1.toNat ≤ 122))]
      rw [if_pos (by omega : 97 ≤ c2.toNat ∧ c2.toNat ≤ 122)]
      rw [hc2, Nat.add_sub_cancel, Char.ofNat_toNat]
  · rw [if_neg h1] at h
    by_cases h2 : 65 ≤ c2.toNat ∧ c2.toNat ≤ 90
    · rw [if_pos h2] at h
      have e2 : (Char.ofNat (c2.toNat + 32)).toNat = c2.toNat + 32 :=
        toNat_ofNat_of_lt _ (by omega)
      have hc1 : c1.toNat = c2.toNat + 32 := by rw [h, e2]
      rw [if_pos (by omega : 97 ≤ c1.toNat ∧ c1.toNat ≤ 122)]
      rw [if_neg (by omega : ¬(97 ≤ c2.toNat ∧ c2.toNat ≤ 122))]
      rw [hc1, Nat.add_sub_cancel, Char.ofNat_toNat]
    · rw [if_neg h2] at h
      rw [h]

theorem asciiLower_eq_of_asciiLower_eq {c1 c2 : Char}
    (h : asciiLower c1 = asciiLower c2) (up : Bool) :
    (if up then asciiUpper c1 else asciiLower c1)
      = (if up then asciiUpper c2 else asciiLower c2) := by
  cases up with
  | true => simpa using asciiUpper_eq_of_asciiLower_eq h
  | false => simpa using h

theorem canonicalStep_eq_of_lower_eq :
    ∀ (l1 l2 : List Char), l1.map asciiLower = l2.map asciiLower →
      ∀ up, canonicalStep up l1 = canonicalStep up l2 := by
  intro l1
  induction l1 with
  | nil =>
    intro l2 h up
    cases l2 with
    | nil => rfl
    | cons c cs => simp at h
  | cons c1 cs1 ih =>
    intro l2 h up
    cases l2 with
    | nil => simp at h
    | cons c2 cs2 =>
      simp only [List.map_cons, List.cons.injEq] at h
      have hc := asciiLower_eq_of_asciiLower_eq h.1 up
      simp only [canonicalStep]
      rw [hc, ih cs2 h.2]

/-- Keys that consist of valid header-field bytes and differ only in ASCII
letter case canonicalize to the same header key. -/
theorem canonical_eq_of_case (s1 s2 : String)
    (h1 : s1.data.all validHeaderFieldByte = true)
    (h2 : s2.data.all validHeaderFieldByte = true)
    (hc : s1.data.map asciiLower = s2.data.map asciiLower) :
    canonicalMIMEHeaderKey s1 = canonicalMIMEHeaderKey s2 := by
  unfold canonicalMIMEHeaderKey
  rw [if_pos h1, if_pos h2]
  exact congrArg String.mk (canonicalStep_eq_of_lower_eq s1.data s2.data hc true)

theorem find?_filter_of_imp {α : Type} (q r : α → Bool)
    (h : ∀ x, q x = true → r x = true) :
    ∀ l : List α, (l.filter r).find? q = l.find? q := by
  intro l
  induction l with
  | nil => rfl
  | cons x xs ih =>
    by_cases hq : q x = true
    · rw [List.filter_cons, if_pos (h x hq), List.find?_cons_of_pos _ hq,
        List.find?_cons_of_pos _ hq]
    · rw [List.filter_cons]
      by_cases hr : r x = true
      · rw [if_pos hr, List.find?_cons_of_neg _ hq, List.find?_cons_of_neg _ hq, ih]
      · rw [if_neg hr, List.find?_cons_of_neg _ hq, ih]

theorem headerFind_headerSet (m : HeaderMap) (k v ck : String) :
    headerFind (headerSet m k v) ck
      = if canonicalMIMEHeaderKey k = ck then some v else headerFind m ck := by
  unfold headerSet headerFind
  rw [List.find?_append]
  by_cases he : canonicalMIMEHeaderKey k = ck
  · have hl : (m.filter (fun p => p.1 != canonicalMIMEHeaderKey k)).find?
        (fun p => p.1 == ck) = none := by
      rw [List.find?_eq_none]
      intro p hp hpk
      have hne : (p.1 != canonicalMIMEHeaderKey k) = true := (List.mem_filter.mp hp).2
      exact (bne_iff_ne.mp hne) (by rw [beq_iff_eq.mp hpk, he])
    rw [hl, if_pos he]
    simp [he]
  · have hr : (([(canonicalMIMEHeaderKey k, v)] : HeaderMap)).find?
        (fun p => p.1 == ck) = none := by
      rw [List.find?_eq_none]
      intro p hp hpk
      rw [List.mem_singleton.mp hp] at hpk
      exact he (beq_iff_eq.mp hpk)
    have hfl := find?_filter_of_imp (fun p => p.1 == ck)
      (fun p => p.1 != canonicalMIMEHeaderKey k)
      (fun x hx => bne_iff_ne.mpr (fun hcontra => he (hcontra ▸ beq_iff_eq.mp hx))) m
    rw [hr, hfl, if_neg he]
    cases m.find? (fun p => p.1 == ck) <;> rfl

theorem headerFind_applyHeaders (hs : List Header) :
    ∀ (m : HeaderMap) (ck : String),
      headerFind (applyHeaders hs m) ck = (lastValue hs ck).or (headerFind m ck) := by
  induction hs with
  | nil => intro m ck; rfl
  | cons h hs ih =>
    intro m ck
    have happ : applyHeaders (h :: hs) m
        = applyHeaders hs (if h.enabled && h.key != "" then headerSet m h.key h.value else m) :=
      rfl
    rw [happ, ih]
    cases hlv : lastValue hs ck with
    | some v => simp [lastValue, hlv]
    | none =>
      simp only [lastValue, hlv, Option.or]
      by_cases hc : h.enabled = true ∧ h.key ≠ ""
      · have hcb : (h.enabled && h.key != "") = true := by
          simp [hc.1, bne_iff_ne.mpr hc.2]
        rw [if_pos hcb, headerFind_headerSet]
        by_cases he : canonicalMIMEHeaderKey h.key = ck
        · rw [if_pos he, if_pos ⟨hc.1, hc.2, he⟩]
        · rw [if_neg he, if_neg (fun hcontra => he hcontra.2.2)]
      · have hcb : ¬((h.enabled && h.key != "") = true) := by
          intro hcontra
          rcases Bool.and_eq_true_iff.mp hcontra with ⟨hce, hck⟩
          exact hc ⟨hce, bne_iff_ne.mp hck⟩
        rw [if_neg hcb, if_neg (fun hcontra => hc ⟨hcontra.1, hcontra.2.1⟩)]

theorem lastValue_eq_none (ck : String) :
    ∀ l : List Header,
      (∀ x ∈ l, ¬(x.enabled = true ∧ x.key ≠ "" ∧ canonicalMIMEHeaderKey x.key = ck)) →
      lastValue l ck = none := by
  intro l
  induction l with
  | nil => intro _; rfl
  | cons h hs ih =>
    intro hall
    have hrest := ih (fun x hx => hall x (List.mem_cons_of_mem h hx))
    simp only [lastValue, hrest]
    rw [if_neg (hall h (List.mem_cons_self h hs))]

theorem lastValue_append (ck : String) :
    ∀ xs ys : List Header,
      lastValue (xs ++ ys) ck = (lastValue ys ck).or (lastValue xs ck) := by
  intro xs ys
  induction xs with
  | nil =>
    simp only [List.nil_append]
    cases lastValue ys ck <;> rfl
  | cons x xs ih =>
    simp only [List.cons_append, lastValue, List.append_eq, ih]
    cases lastValue ys ck with
    | some v => rfl
    | none => rfl

theorem countP_headerSet_le_one (m : HeaderMap) (k v ck : String)
    (hm : m.countP (fun p => p.1 == ck) ≤ 1) :
    (headerSet m k v).countP (fun p => p.1 == ck) ≤ 1 := by
  unfold headerSet
  rw [List.countP_append]
  by_cases he : canonicalMIMEHeaderKey k = ck
  · have hfl : (m.filter (fun p => p.1 != canonicalMIMEHeaderKey k)).countP
        (fun p => p.1 == ck) = 0 := by
      rw [List.countP_eq_zero]
      intro p hp hpk
      have hne : (p.1 != canonicalMIMEHeaderKey k) = true := (List.mem_filter.mp hp).2
      exact (bne_iff_ne.mp hne) (by rw [beq_iff_eq.mp hpk, he])
    rw [hfl]
    simp [List.countP_cons, he]
  · have hone : (([(canonicalMIMEHeaderKey k, v)] : HeaderMap)).countP
        (fun p => p.1 == ck) = 0 := by
      rw [List.countP_eq_zero]
      intro p hp hpk
      rw [List.mem_singleton.mp hp] at hpk
      exact he (beq_iff_eq.mp hpk)
    have hle : (m.filter (fun p => p.1 != canonicalMIMEHeaderKey k)).countP
        (fun p => p.1 == ck) ≤ m.countP (fun p => p.1 == ck) := by
      rw [List.countP_filter]
      exact List.countP_mono_left (fun x _ hx => Bool.and_eq_true_iff.mp hx |>.1)
    omega

theorem countP_applyHeaders_le_one (hs : List Header) (ck : String) :
    ∀ m : HeaderMap, m.countP (fun p => p.1 == ck) ≤ 1 →
      (applyHeaders hs m).countP (fun p => p.1 == ck) ≤ 1 := by
  induction hs with
  | nil => intro m hm; exact hm
  | cons x xs ih =>
    intro m hm
    have happ : applyHeaders (x :: xs) m
        = applyHeaders xs (if x.enabled && x.key != "" then headerSet m x.key x.value else m) :=
      rfl
    by_cases hc : (x.enabled && x.key != "") = true
    · rw [happ, if_pos hc]
      exact ih _ (countP_headerSet_le_one m x.key x.value ck hm)
    · rw [happ, if_neg hc]
      exact ih m hm

theorem canonical_contentType : canonicalMIMEHeaderKey "Content-Type" = "Content-Type" := by
  decide

/-- C8 counterexample: an enabled header that explicitly sets Content-Type to
the empty string is not preserved — `Header.Get` returns "" for it, so the
application/json default overwrites it in the outgoing request. -/
theorem contentType_default_cex :
    c8Request.body ≠ "" ∧
    c8Request.headers = [{ key := "Content-Type", value := "", enabled := true }] ∧
    headerGet (outgoingHeaders c8Request) "Content-Type" = "application/json" ∧
    "application/json" ≠ "" := by
  decide

/-- C8 amended: for every spec with non-empty body, if no enabled header
canonicalizes to Content-Type then the outgoing request carries
Content-Type: application/json; and any Content-Type value the enabled
headers establish is preserved unchanged provided it is non-empty (an
enabled Content-Type header with empty value is indistinguishable from an
unset one for `Header.Get` and is overwritten by the default). -/
theorem contentType_default (req : Request) :
    (req.body ≠ "" →
      (∀ h ∈ req.headers, h.enabled = true → h.key ≠ "" →
          canonicalMIMEHeaderKey h.key ≠ "Content-Type") →
      headerGet (outgoingHeaders req) "Content-Type" = "application/json") ∧
    (∀ v, headerGet (applyHeaders req.headers []) "Content-Type" = v → v ≠ "" →
      headerGet (outgoingHeaders req) "Content-Type" = v) := by
  constructor
  · intro hbody hnone
    have hlv : lastValue req.headers "Content-Type" = none :=
      lastValue_eq_none "Content-Type" req.headers
        (fun x hx hcontra => hnone x hx hcontra.1 hcontra.2.1 hcontra.2.2)
    have hfind : headerFind (applyHeaders req.headers []) "Content-Type" = none := by
      rw [headerFind_applyHeaders, hlv]
      rfl
    have hget : headerGet (applyHeaders req.headers []) "Content-Type" = "" := by
      unfold headerGet
      rw [canonical_contentType, hfind]
      rfl
    have hcond : (req.body != "" && headerGet (applyHeaders req.headers []) "Content-Type" == "")
        = true := by
      simp [bne_iff_ne.mpr hbody, hget]
    unfold outgoingHeaders
    rw [if_pos hcond]
    unfold headerGet
    rw [canonical_contentType, headerFind_headerSet, if_pos canonical_contentType]
    rfl
  · intro v hv hvne
    have hcond : ¬((req.body != "" && headerGet (applyHeaders req.headers []) "Content-Type" == "")
        = true) := by
      simp [hv, hvne]
    unfold outgoingHeaders
    rw [if_neg hcond]
    exact hv

/-- Witness for C8 amended: the default fires with no enabled Content-Type,
and an explicit text/plain value is preserved. -/
theorem contentType_default_witness :
    headerGet (outgoingHeaders c8wRequest1) "Content-Type" = "application/json" ∧
    headerGet (outgoingHeaders c8wRequest2) "Content-Type" = "text/plain" :=
  ⟨(contentType_default c8wRequest1).1 (by decide) (by decide),
   (contentType_default c8wRequest2).2 "text/plain" (by decide) (by decide)⟩

/-- C10 counterexample: keys containing an invalid header-field byte (a
space) are not canonicalized, so two enabled entries whose non-empty keys
differ only in letter case produce two distinct outgoing headers — no
case-insensitive matching happens and the earlier value survives. -/
theorem applyHeaders_case_cex :
    ("a b" : String).data.map asciiLower = ("A b" : String).data.map asciiLower ∧
    ("a b" : String) ≠ "A b" ∧
    (applyHeaders c10Headers []).length = 2 ∧
    headerFind (applyHeaders c10Headers []) "a b" = some "1" ∧
    headerFind (applyHeaders c10Headers []) "A b" = some "2" := by
  decide

/-- C10 amended: for keys made of valid header-field bytes, header
application matches case-insensitively: two enabled entries whose non-empty
keys differ only in ASCII letter case share one canonical key, and (when no
later enabled entry canonicalizes to that key) the outgoing header set holds
exactly one entry under the canonical key, carrying the later entry's value. -/
theorem applyHeaders_case_insensitive (pre mid suf : List Header) (e1 e2 : Header)
    (h1e : e1.enabled = true) (h2e : e2.enabled = true)
    (h1k : e1.key ≠ "") (h2k : e2.key ≠ "")
    (h1v : e1.key.data.all validHeaderFieldByte = true)
    (h2v : e2.key.data.all validHeaderFieldByte = true)
    (hcase : e1.key.data.map asciiLower = e2.key.data.map asciiLower)
    (hsuf : ∀ h ∈ suf, ¬(h.enabled = true ∧ h.key ≠ "" ∧
        canonicalMIMEHeaderKey h.key = canonicalMIMEHeaderKey e2.key)) :
    canonicalMIMEHeaderKey e1.key = canonicalMIMEHeaderKey e2.key ∧
    headerFind (applyHeaders (pre ++ e1 :: mid ++ e2 :: suf) [])
        (canonicalMIMEHeaderKey e2.key) = some e2.value ∧
    (applyHeaders (pre ++ e1 :: mid ++ e2 :: suf) []).countP
        (fun p => p.1 == canonicalMIMEHeaderKey e2.key) = 1 := by
  have hcanon := canonical_eq_of_case e1.key e2.key h1v h2v hcase
  have hsufv : lastValue suf (canonicalMIMEHeaderKey e2.key) = none :=
    lastValue_eq_none _ suf hsuf
  have hlast2 : lastValue (e2 :: suf) (canonicalMIMEHeaderKey e2.key) = some e2.value := by
    have hstep : lastValue (e2 :: suf) (canonicalMIMEHeaderKey e2.key)
        = (match lastValue suf (canonicalMIMEHeaderKey e2.key) with
           | some v => some v
           | none =>
             if e2.enabled = true ∧ e2.key ≠ "" ∧
                 canonicalMIMEHeaderKey e2.key = canonicalMIMEHeaderKey e2.key then
               some e2.value
             else none) := rfl
    rw [hstep, hsufv]
    exact if_pos ⟨h2e, h2k, rfl⟩
  have hlast : lastValue (pre ++ e1 :: mid ++ e2 :: suf) (canonicalMIMEHeaderKey e2.key)
      = some e2.value := by
    rw [lastValue_append, hlast2]
    rfl
  have hfind : headerFind (applyHeaders (pre ++ e1 :: mid ++ e2 :: suf) [])
      (canonicalMIMEHeaderKey e2.key) = some e2.value := by
    rw [headerFind_applyHeaders, hlast]
    rfl
  refine ⟨hcanon, hfind, ?_⟩
  have hle : (applyHeaders (pre ++ e1 :: mid ++ e2 :: suf) []).countP
      (fun p => p.1 == canonicalMIMEHeaderKey e2.key) ≤ 1 :=
    countP_applyHeaders_le_one _ _ [] (by simp)
  have hpos : 0 < (applyHeaders (pre ++ e1 :: mid ++ e2 :: suf) []).countP
      (fun p => p.1 == canonicalMIMEHeaderKey e2.key) := by
    unfold headerFind at hfind
    cases hf : (applyHeaders (pre ++ e1 :: mid ++ e2 :: suf) []).find?
        (fun p => p.1 == canonicalMIMEHeaderKey e2.key) with
    | none => rw [hf] at hfind; simp at hfind
    | some q =>
      have hq : (q.1 == canonicalMIMEHeaderKey e2.key) = true := by
        simpa using List.find?_some hf
      exact List.countP_pos_iff.mpr ⟨q, List.mem_of_find?_eq_some hf, hq⟩
  omega

/-- Witness for C10 amended: keys "x-token" and "X-TOKEN" canonicalize to the
same key and the later value wins, with a single resulting entry. -/
theorem applyHeaders_case_insensitive_witness :
    canonicalMIMEHeaderKey "x-token" = canonicalMIMEHeaderKey "X-TOKEN" ∧
    headerFind (applyHeaders ([] ++ { key := "x-token", value := "1", enabled := true }
        :: [] ++ { key := "X-TOKEN", value := "2", enabled := true } :: []) [])
        (canonicalMIMEHeaderKey "X-TOKEN") = some "2" ∧
    (applyHeaders ([] ++ { key := "x-token", value := "1", enabled := true }
        :: [] ++ { key := "X-TOKEN", value := "2", enabled := true } :: []) []).countP
        (fun p => p.1 == canonicalMIMEHeaderKey "X-TOKEN") = 1 :=
  applyHeaders_case_insensitive [] [] []
    { key := "x-token", value := "1", enabled := true }
    { key := "X-TOKEN", value := "2", enabled := true }
    rfl rfl (by decide) (by decide) (by decide) (by decide) (by decide) (by simp)

/-- C9: FormatJSON is total and never errors — parsable input is re-serialized
with deterministic 2-space indentation, unparsable input is returned
unchanged; IsJSON is true exactly when the input parses as JSON; in
particular FormatJSON on a small object yields the indented equivalent,
FormatJSON "not json" is returned unchanged and IsJSON "not json" is false. -/
theorem formatJSON_spec :
    (∀ s v, parseJSON s = some v → FormatJSON s = marshalIndentJSON v) ∧
    (∀ s, parseJSON s = none → FormatJSON s = s) ∧
    (∀ s, IsJSON s = (parseJSON s).isSome) ∧
    FormatJSON "\x7b\"a\":1\x7d" = "\x7b\n  \"a\": 1\n\x7d" ∧
    FormatJSON "not json" = "not json" ∧
    IsJSON "not json" = false := by
  refine ⟨?_, ?_, fun s => rfl, rfl, rfl, rfl⟩
  · intro s v h
    have hne : ¬(s = "") := by
      intro he
      subst he
      rw [show parseJSON "" = none from rfl] at h
      exact Option.noConfusion h
    unfold FormatJSON
    rw [if_neg (by simpa using hne), h]
  · intro s h
    by_cases he : s = ""
    · subst he
      rfl
    · unfold FormatJSON
      rw [if_neg (by simpa using he), h]

/-- Witness for C9: the universally quantified clauses applied at concrete
inputs — an array that parses and an input that does not. -/
theorem formatJSON_spec_witness :
    FormatJSON "[1, 2]" = marshalIndentJSON (Json.arr [Json.num "1", Json.num "2"]) ∧
    FormatJSON "nope" = "nope" :=
  ⟨formatJSON_spec.1 "[1, 2]" (Json.arr [Json.num "1", Json.num "2"]) (by rfl),
   formatJSON_spec.2.1 "nope" (by rfl)⟩

/-- C1 counterexample: with an existing templates.json that is not valid
JSON, the load itself fails — but NewStorage succeeds anyway (the load errors
are discarded at storage.go lines 50-51), so construction does NOT propagate
the parse error to the caller. -/
theorem newStorage_parse_error_cex :
    (loadTemplatesResult (FileState.present "not json")
        = Except.error "invalid character in JSON input") ∧
    newStorage
        { homeDirOk := true, mkdirOk := true,
          templatesData := FileState.present "not json",
          historyData := FileState.missing }
      = Except.ok { templates := [], history := [] } :=
  ⟨rfl, rfl⟩

/-- C1 amended: loadTemplates and loadHistory do return a parse error for an
existing-but-unparsable file and treat only a missing file as an empty
collection; but NewStorage ignores those returned errors, so store
construction succeeds with the affected collection left empty — construction
fails only when the home directory cannot be resolved or the data directory
cannot be created. -/
theorem newStorage_parse_error (d : String) (h : parseJSON d = none) :
    (loadTemplatesResult (FileState.present d)
        = Except.error "invalid character in JSON input") ∧
    (loadHistoryResult (FileState.present d)
        = Except.error "invalid character in JSON input") ∧
    loadTemplatesResult FileState.missing = Except.ok [] ∧
    loadHistoryResult FileState.missing = Except.ok [] ∧
    (newStorage
        { homeDirOk := true, mkdirOk := true,
          templatesData := FileState.present d,
          historyData := FileState.present d }
      = Except.ok { templates := [], history := [] }) ∧
    (∀ env : StorageEnv, env.homeDirOk = false →
        newStorage env = Except.error "cannot resolve user home directory") ∧
    (∀ env : StorageEnv, env.homeDirOk = true → env.mkdirOk = false →
        newStorage env = Except.error "cannot create data directory") := by
  have ht : loadTemplatesResult (FileState.present d)
      = Except.error "invalid character in JSON input" := by
    show (match parseJSON d with
          | none => Except.error "invalid character in JSON input"
          | some j => decodeTemplates j)
        = Except.error "invalid character in JSON input"
    rw [h]
  have hh : loadHistoryResult (FileState.present d)
      = Except.error "invalid character in JSON input" := by
    show (match parseJSON d with
          | none => Except.error "invalid character in JSON input"
          | some j => decodeHistoryItems j)
        = Except.error "invalid character in JSON input"
    rw [h]
  refine ⟨ht, hh, rfl, rfl, ?_, ?_, ?_⟩
  · unfold newStorage
    simp only [ht, hh]
    rfl
  · intro env h1
    unfold newStorage
    rw [h1]
    rfl
  · intro env h1 h2
    unfold newStorage
    rw [h1, h2]
    rfl

/-- Witness for C1 amended at the unparsable input "not json". -/
theorem newStorage_parse_error_witness :
    (loadTemplatesResult (FileState.present "not json")
        = Except.error "invalid character in JSON input") ∧
    (loadHistoryResult (FileState.present "not json")
        = Except.error "invalid character in JSON input") ∧
    loadTemplatesResult FileState.missing = Except.ok [] ∧
    loadHistoryResult FileState.missing = Except.ok [] ∧
    (newStorage
        { homeDirOk := true, mkdirOk := true,
          templatesData := FileState.present "not json",
          historyData := FileState.present "not json" }
      = Except.ok { templates := [], history := [] }) ∧
    (∀ env : StorageEnv, env.homeDirOk = false →
        newStorage env = Except.error "cannot resolve user home directory") ∧
    (∀ env : StorageEnv, env.homeDirOk = true → env.mkdirOk = false →
        newStorage env = Except.error "cannot create data directory") :=
  newStorage_parse_error "not json" (by rfl)

/-- C2 counterexample: the GetTemplates copy is shallow — mutating a nested
header through the returned sequence changes the store's template collection,
so a subsequent call observes the mutation. -/
theorem getTemplates_shallow_cex :
    templatesView c2Ret.2 c2Store = templatesView c2Heap c2Store ∧
    templatesView c2Mutated c2Store ≠ templatesView c2Ret.2 c2Store := by
  decide

theorem getD_append_lt {α : Type} (l : List α) (a : α) (d : α) (i : Nat)
    (h : i < l.length) : (l ++ [a]).getD i d = l.getD i d :=
  List.getD_append l [a] d i h

theorem getD_set_append {α : Type} (l : List α) (a x : α) (d : α) (i : Nat)
    (h : i < l.length) : ((l ++ [a]).set l.length x).getD i d = l.getD i d := by
  rw [List.getD_eq_getElem?_getD, List.getElem?_set_ne (by omega : l.length ≠ i),
    ← List.getD_eq_getElem?_getD]
  exact getD_append_lt l a d i h

/-- C2 amended: the sequences returned by GetTemplates and GetHistory are
top-level (shallow) copies — the store is unaffected by the call itself and
by the caller replacing elements of the returned sequence; but mutation of
nested shared structure reachable through a returned element (the request's
headers slice, the response's headers map) writes through to the store. -/
theorem getTemplates_shallow (hp : Heap) (s : StoreRef)
    (ht : s.templatesArr < hp.tarrays.length)
    (hh : s.historyArr < hp.harrays.length) :
    (templatesView (getTemplatesRef hp s).2 s = templatesView hp s) ∧
    (∀ (i : Nat) (t : TemplateRef),
        templatesView (writeTemplateAt (getTemplatesRef hp s).2 (getTemplatesRef hp s).1 i t) s
          = templatesView hp s) ∧
    (historyView (getHistoryRef hp s).2 s = historyView hp s) ∧
    (∀ (i : Nat) (h : HistoryRef),
        historyView (writeHistoryAt (getHistoryRef hp s).2 (getHistoryRef hp s).1 i h) s
          = historyView hp s) := by
  refine ⟨?_, ?_, ?_, ?_⟩
  · unfold templatesView getTemplatesRef
    simp only
    rw [getD_append_lt _ _ _ _ ht]
  · intro i t
    unfold templatesView writeTemplateAt getTemplatesRef
    simp only
    rw [getD_set_append _ _ _ _ _ ht]
  · unfold historyView getHistoryRef
    simp only
    rw [getD_append_lt _ _ _ _ hh]
  · intro i h
    unfold historyView writeHistoryAt getHistoryRef
    simp only
    rw [getD_set_append _ _ _ _ _ hh]

/-- Witness for C2 amended at a concrete one-template, one-history store. -/
theorem getTemplates_shallow_witness :
    (templatesView (getTemplatesRef c2Heap c2Store).2 c2Store
        = templatesView c2Heap c2Store) ∧
    (∀ (i : Nat) (t : TemplateRef),
        templatesView
            (writeTemplateAt (getTemplatesRef c2Heap c2Store).2
              (getTemplatesRef c2Heap c2Store).1 i t) c2Store
          = templatesView c2Heap c2Store) ∧
    (historyView (getHistoryRef c2Heap c2Store).2 c2Store
        = historyView c2Heap c2Store) ∧
    (∀ (i : Nat) (h : HistoryRef),
        historyView
            (writeHistoryAt (getHistoryRef c2Heap c2Store).2
              (getHistoryRef c2Heap c2Store).1 i h) c2Store
          = historyView c2Heap c2Store) :=
  getTemplates_shallow c2Heap c2Store (by decide) (by decide)

end PercentMan
